import Mathlib

/- Formal model of the ACVI (Agro-Climatic Volatility Index) pipeline.
   The definitions below are shallow embeddings of the Python sources
   analys.py, calculate_acvi.py, process_and_normalize.py and
   validate_acvi.py.  Real-valued climate quantities are modelled as
   rationals; pandas tables become Lean lists; the seeded NumPy random
   streams become explicit function arguments. -/

namespace ACVI

/-- The four sub-index components (analys.py lines 31-36). -/
inductive Component
  | temperature_volatility
  | precipitation_volatility
  | moisture_stress
  | extreme_events
deriving DecidableEq, Repr

open Component

/-- Component order used by the Python dictionaries and loops. -/
def componentList : List Component :=
  [temperature_volatility, precipitation_volatility, moisture_stress, extreme_events]

/-- Position of a component in `componentList`; this is the order in which
random draws are consumed for that component. -/
def componentIdx : Component → ℕ
  | temperature_volatility => 0
  | precipitation_volatility => 1
  | moisture_stress => 2
  | extreme_events => 3

/-- The field `self.default_weights` of `ACVISensitivityAnalyzer`
(analys.py lines 38-43). -/
def default_weights : Component → ℚ
  | temperature_volatility => 30/100
  | precipitation_volatility => 30/100
  | moisture_stress => 25/100
  | extreme_events => 15/100

/-- The field `self.weights` of `ACVICalculator` (calculate_acvi.py lines
49-54); these are the weights that produce the baseline `acvi_score`
values written to `acvi_scores.csv`. -/
def calculator_weights : Component → ℚ
  | temperature_volatility => 15/100
  | precipitation_volatility => 25/100
  | moisture_stress => 20/100
  | extreme_events => 40/100

/-- The weighted composite of `_calculate_acvi_with_weights` (analys.py
lines 134-142); the same four-term sum appears in calculate_acvi.py at
lines 288-293 and 389-398. -/
def calculate_acvi_with_weights (w s : Component → ℚ) : ℚ :=
  s temperature_volatility * w temperature_volatility +
  s precipitation_volatility * w precipitation_volatility +
  s moisture_stress * w moisture_stress +
  s extreme_events * w extreme_events

/-- The normalized component profile {80, 60, 40, 20} used by the worked
example of the specification. -/
def exampleComponents : Component → ℚ
  | temperature_volatility => 80
  | precipitation_volatility => 60
  | moisture_stress => 40
  | extreme_events => 20

/-- np.clip on rationals: clamp `x` into the interval [lo, hi]. -/
def clip (x lo hi : ℚ) : ℚ := max lo (min x hi)

/-- Floor of a nonnegative rational, as a natural number. -/
def ratFloorToNat (q : ℚ) : ℕ := q.num.natAbs / q.den

/-- np.percentile with the default linear interpolation: sort the values
ascending, take position q/100*(n-1) and interpolate linearly between the
neighbouring order statistics.  The empty case is guarded (np.percentile
raises there; the pipeline always passes the full cohort). -/
def percentile (q : ℚ) (values : List ℚ) : ℚ :=
  let s := values.insertionSort (· ≤ ·)
  let n := s.length
  if n = 0 then 0
  else
    let pos : ℚ := q / 100 * (n - 1)
    let i : ℕ := ratFloorToNat pos
    let lo := s.getD i 0
    let hi := s.getD (i + 1) lo
    lo + (pos - i) * (hi - lo)

/-- `robust_normalize` (calculate_acvi.py lines 313-319): percentile-based
robust scaling of one raw value against the cohort values. -/
def robust_normalize (value : ℚ) (values : List ℚ) : ℚ :=
  let p5 := percentile 5 values
  let p95 := percentile 95 values
  if p95 = p5 then 50
  else clip ((value - p5) / (p95 - p5) * 100) 0 100

/-- One location's raw sub-index result (output of `calculate_acvi`). -/
structure RawResult where
  location : String
  components : Component → ℚ

/-- One location's normalized result (output of `normalize_components`). -/
structure NormResult where
  location : String
  components : Component → ℚ
  components_raw : Component → ℚ
  acvi_score : ℚ

/-- `normalize_components` (calculate_acvi.py lines 365-407): each
component of each location is robust-normalized against the values of
that component across the whole cohort, and the baseline composite score
is the `self.weights` (= `calculator_weights`) combination of the
normalized components. -/
def normalize_components (results : List RawResult) : List NormResult :=
  results.map (fun r =>
    let normc : Component → ℚ := fun c =>
      robust_normalize (r.components c) (results.map (fun s => s.components c))
    { location := r.location
      components := normc
      components_raw := r.components
      acvi_score :=
        calculator_weights temperature_volatility * normc temperature_volatility +
        calculator_weights precipitation_volatility * normc precipitation_volatility +
        calculator_weights moisture_stress * normc moisture_stress +
        calculator_weights extreme_events * normc extreme_events })

/-- Placeholder raw result used as a `getD` default. -/
def emptyRaw : RawResult := { location := "", components := fun _ => 0 }

/-- Placeholder normalized result used as a `getD` default. -/
def emptyNorm : NormResult :=
  { location := "", components := fun _ => 0, components_raw := fun _ => 0, acvi_score := 0 }

/-- Cohort of three locations whose raw value is the same for every
component: 10, 50 and 90 (the worked example of the specification). -/
def exCohort : List RawResult :=
  [ { location := "L1", components := fun _ => 10 }
  , { location := "L2", components := fun _ => 50 }
  , { location := "L3", components := fun _ => 90 } ]

/-- C1 counterexample: the weight vector that produces the baseline
composite scores (`ACVICalculator.weights`, calculate_acvi.py lines
49-54) is not the analyzer's default weight vector {0.30, 0.30, 0.25,
0.15}; on the example profile {80, 60, 40, 20} it yields 43, not 55. -/
theorem c1_baseline_weights_counterexample :
    calculator_weights ≠ default_weights ∧
    calculate_acvi_with_weights calculator_weights exampleComponents ≠ 55 := by
  constructor
  · intro h
    have h1 := congrFun h Component.temperature_volatility
    norm_num [calculator_weights, default_weights] at h1
  · norm_num [calculate_acvi_with_weights, calculator_weights, exampleComponents]

/-- C1 (amended): the composite score is the weighted linear combination
Σ weight[c]·score[c] over the four components; the analyzer default
weights {0.30, 0.30, 0.25, 0.15} applied to normalized components
{80, 60, 40, 20} give exactly 55, while the weights actually used to
produce the baseline composite scores, `ACVICalculator.weights`
{0.15, 0.25, 0.20, 0.40}, give 43 on the same profile. -/
theorem c1_composite_weighted_sum :
    (∀ w s : Component → ℚ, calculate_acvi_with_weights w s =
      (componentList.map (fun c => w c * s c)).sum) ∧
    calculate_acvi_with_weights default_weights exampleComponents = 55 ∧
    calculate_acvi_with_weights calculator_weights exampleComponents = 43 := by
  refine ⟨fun w s => ?_, ?_, ?_⟩
  · simp [calculate_acvi_with_weights, componentList]
    ring
  · norm_num [calculate_acvi_with_weights, default_weights, exampleComponents]
  · norm_num [calculate_acvi_with_weights, calculator_weights, exampleComponents]

/-- C2: every cohort-normalized component value lies in [0, 100]; it is
exactly 50 when the 5th and 95th percentiles coincide, and otherwise it
is clip(100·(raw − p5)/(p95 − p5), 0, 100); and `normalize_components`
feeds each location's raw component value together with that component's
values across the whole cohort into this scaling. -/
theorem c2_cohort_normalization (results : List RawResult) (v : ℚ) (vals : List ℚ)
    (i : ℕ) (hi : i < results.length) (c : Component) :
    (0 ≤ robust_normalize v vals ∧ robust_normalize v vals ≤ 100) ∧
    (percentile 95 vals = percentile 5 vals → robust_normalize v vals = 50) ∧
    (percentile 95 vals ≠ percentile 5 vals →
      robust_normalize v vals =
        clip (100 * (v - percentile 5 vals) / (percentile 95 vals - percentile 5 vals)) 0 100) ∧
    ((normalize_components results).getD i emptyNorm).components c =
      robust_normalize ((results.getD i emptyRaw).components c)
        (results.map (fun s => s.components c)) := by
  refine ⟨?_, ?_, ?_, ?_⟩
  · unfold robust_normalize
    by_cases h : percentile 95 vals = percentile 5 vals
    · simp [h]
      norm_num
    · simp only [h, if_neg, if_false]
      constructor
      · exact le_max_left _ _
      · exact max_le (by norm_num) (min_le_right _ _)
  · intro h
    unfold robust_normalize
    simp [h]
  · intro h
    unfold robust_normalize
    simp only [h, if_false]
    ring_nf
  · have hlen : i < (normalize_components results).length := by
      simpa [normalize_components] using hi
    rw [List.getD_eq_getElem _ _ hlen, List.getD_eq_getElem _ _ hi]
    simp [normalize_components]

/-- C2 witness: the bounds, the degenerate-percentile clause, the clip
formula and the cohort wiring, instantiated on the three-location cohort
with raw values 10, 50, 90. -/
theorem c2_cohort_normalization_witness :
    0 < exCohort.length ∧
    ((0 ≤ robust_normalize 50 [10, 50, 90] ∧ robust_normalize 50 [10, 50, 90] ≤ 100) ∧
    (percentile 95 [10, 50, 90] = percentile 5 [10, 50, 90] →
      robust_normalize 50 [10, 50, 90] = 50) ∧
    (percentile 95 [10, 50, 90] ≠ percentile 5 [10, 50, 90] →
      robust_normalize 50 [10, 50, 90] =
        clip (100 * (50 - percentile 5 [10, 50, 90]) /
          (percentile 95 [10, 50, 90] - percentile 5 [10, 50, 90])) 0 100) ∧
    ((normalize_components exCohort).getD 0 emptyNorm).components
        Component.temperature_volatility =
      robust_normalize ((exCohort.getD 0 emptyRaw).components Component.temperature_volatility)
        (exCohort.map (fun s => s.components Component.temperature_volatility))) :=
  ⟨by norm_num [exCohort],
   c2_cohort_normalization exCohort 50 [10, 50, 90] 0 (by norm_num [exCohort])
     Component.temperature_volatility⟩

/-- A pandas column: one optional value per row (`none` = NaN). -/
abbrev Column := List (Option ℚ)

/-- A location's data frame, as a list of named columns. -/
abbrev Frame := List (String × Column)

/-- The `required_params` of `validate_input_data` (calculate_acvi.py line 119). -/
def required_params : List String := ["T2M", "PRECTOTCORR", "GWETROOT"]

/-- Column lookup, mirroring `param in df.columns` / `df[param]`. -/
def findCol (df : Frame) (p : String) : Option Column :=
  (df.find? (fun kv => kv.1 == p)).map Prod.snd

/-- Fraction of missing entries of a column, `df[param].isna().mean()`.
An empty column gives NaN in pandas, for which the `> 0.3` test is
false; that case is modelled as 0. -/
def isna_mean (col : Column) : ℚ :=
  if col.length = 0 then 0 else (col.countP (fun v => v.isNone) : ℚ) / col.length

/-- `validate_input_data` (calculate_acvi.py lines 117-131): a location
fails validation when one of the three required parameter columns is
absent, or when a required column is more than 30% missing. -/
def validate_input_data (df : Frame) : Bool :=
  if required_params.all (fun p => (findCol df p).isSome) then
    !(required_params.any (fun p => decide (3/10 < isna_mean ((findCol df p).getD []))))
  else false

/-- The per-location loop of `calculate_all_locations` (calculate_acvi.py
lines 321-343): locations failing validation are skipped, the survivors
are processed. -/
def calculate_all_locations {α : Type} (process : Frame → α)
    (cohort : List (String × Frame)) : List (String × α) :=
  (cohort.filter (fun ld => validate_input_data ld.2)).map (fun ld => (ld.1, process ld.2))

/-- A frame with complete precipitation and soil-moisture columns but no
temperature column. -/
def exFrameNoTemp : Frame :=
  [("PRECTOTCORR", [some 1, some 2]), ("GWETROOT", [some 1, some 2])]

/-- Keys-nodup lists relate each key to at most one payload. -/
theorem keys_nodup_eq {β : Type} {l : List (String × β)} (h : (l.map Prod.fst).Nodup)
    {k : String} {a b : β} (ha : (k, a) ∈ l) (hb : (k, b) ∈ l) : a = b := by
  induction l with
  | nil => simp at ha
  | cons x t ih =>
    rw [List.map_cons, List.nodup_cons] at h
    rcases List.mem_cons.mp ha with ha1 | ha1 <;>
      rcases List.mem_cons.mp hb with hb1 | hb1
    · rw [← ha1] at hb1
      exact (Prod.mk.injEq _ _ _ _ ▸ hb1.symm).2
    · exfalso
      apply h.1
      rw [← ha1]
      exact List.mem_map.mpr ⟨(k, b), hb1, rfl⟩
    · exfalso
      apply h.1
      rw [← hb1]
      exact List.mem_map.mpr ⟨(k, a), ha1, rfl⟩
    · exact ih h.2 ha1 hb1

/-- C3 counterexample: a frame that has two of the three required base
parameters complete (so it is not missing all three, and no required
column is more than 30% missing) is nevertheless rejected by
`validate_input_data`, because the code rejects as soon as any single
required parameter is absent. -/
theorem c3_validation_counterexample :
    validate_input_data exFrameNoTemp = false ∧
    ¬ (∀ p ∈ required_params, findCol exFrameNoTemp p = none) ∧
    (∀ p ∈ required_params, isna_mean ((findCol exFrameNoTemp p).getD []) ≤ 3/10) := by
  refine ⟨?_, ?_, ?_⟩
  · simp [validate_input_data, required_params, findCol, exFrameNoTemp]
  · intro h
    have h2 := h "PRECTOTCORR" (by simp [required_params])
    simp [findCol, exFrameNoTemp] at h2
  · intro p hp
    fin_cases hp <;>
      · simp [findCol, exFrameNoTemp, isna_mean]
        norm_num

/-- C3 (amended): a location is rejected if and only if at least one of
the three required base parameters is absent from its frame, or more
than 30% of some required parameter's values are missing; a rejected
location never appears in the processed output. -/
theorem c3_rejection_rule {α : Type} (df : Frame) (process : Frame → α)
    (cohort : List (String × Frame)) (name : String) (f : Frame)
    (hnd : (cohort.map Prod.fst).Nodup) (hmem : (name, f) ∈ cohort)
    (hrej : validate_input_data f = false) :
    (validate_input_data df = false ↔
      (∃ p ∈ required_params, findCol df p = none) ∨
      (∃ p ∈ required_params, 3/10 < isna_mean ((findCol df p).getD []))) ∧
    (∀ r : α, (name, r) ∉ calculate_all_locations process cohort) := by
  constructor
  · unfold validate_input_data
    by_cases hall : required_params.all (fun p => (findCol df p).isSome)
    · rw [if_pos hall]
      have hpres : ∀ p ∈ required_params, (findCol df p).isSome := by
        simpa [List.all_eq_true] using hall
      constructor
      · intro hfalse
        right
        have : required_params.any
            (fun p => decide (3/10 < isna_mean ((findCol df p).getD []))) = true := by
          by_contra hcon
          rw [Bool.not_eq_true] at hcon
          rw [hcon] at hfalse
          simp at hfalse
        simpa [List.any_eq_true] using this
      · intro hdisj
        rcases hdisj with ⟨p, hp, hnone⟩ | ⟨p, hp, hbig⟩
        · have := hpres p hp
          rw [hnone] at this
          simp at this
        · have : required_params.any
              (fun p => decide (3/10 < isna_mean ((findCol df p).getD []))) = true :=
            List.any_eq_true.mpr ⟨p, hp, by simpa using hbig⟩
          rw [this]
          rfl
    · rw [if_neg hall]
      simp only [true_iff]
      left
      rw [List.all_eq_true] at hall
      push_neg at hall
      obtain ⟨p, hp, hnot⟩ := hall
      exact ⟨p, hp, Option.not_isSome_iff_eq_none.mp (by simpa using hnot)⟩
  · intro r hr
    unfold calculate_all_locations at hr
    rw [List.mem_map] at hr
    obtain ⟨⟨n', f'⟩, hfil, heq⟩ := hr
    have hn : n' = name := (Prod.mk.injEq _ _ _ _ ▸ heq).1
    have hmem' : (n', f') ∈ cohort := List.mem_of_mem_filter hfil
    have hval : validate_input_data f' = true := by
      simpa using List.of_mem_filter hfil
    rw [hn] at hmem'
    rw [keys_nodup_eq hnd hmem' hmem] at hval
    rw [hrej] at hval
    exact Bool.false_ne_true hval

/-- C3 witness: the rejection rule applied to a one-location cohort whose
frame is missing the temperature column. -/
theorem c3_rejection_rule_witness :
    ((([("X", exFrameNoTemp)] : List (String × Frame)).map Prod.fst).Nodup ∧
      ("X", exFrameNoTemp) ∈ [("X", exFrameNoTemp)] ∧
      validate_input_data exFrameNoTemp = false) ∧
    ((validate_input_data exFrameNoTemp = false ↔
      (∃ p ∈ required_params, findCol exFrameNoTemp p = none) ∨
      (∃ p ∈ required_params, 3/10 < isna_mean ((findCol exFrameNoTemp p).getD []))) ∧
    (∀ r : ℕ, ("X", r) ∉
      calculate_all_locations (fun fr => fr.length) [("X", exFrameNoTemp)])) :=
  ⟨⟨by simp, by simp, by simp [validate_input_data, required_params, findCol, exFrameNoTemp]⟩,
   c3_rejection_rule exFrameNoTemp (fun fr => fr.length) [("X", exFrameNoTemp)] "X"
     exFrameNoTemp (by simp) (by simp)
     (by simp [validate_input_data, required_params, findCol, exFrameNoTemp])⟩

/-- Dry-day flag of one day (process_and_normalize.py line 94):
precipitation strictly below 1.0 unit.  A missing value (NaN) compares
false in pandas and therefore counts as not dry. -/
def dryFlag (p : Option ℚ) : Bool :=
  match p with
  | some x => decide (x < 1)
  | none => false

/-- The DRY_DAYS column: `(df["PRECTOTCORR"] < 1.0).astype(int)`. -/
def dry_days (precip : List (Option ℚ)) : List Bool := precip.map dryFlag

/-- The running loop of process_and_normalize.py lines 96-103: the
counter increments on a dry day and resets to 0 on a wet day. -/
def drySpellAux (cur : ℕ) : List Bool → List ℕ
  | [] => []
  | b :: bs =>
    (if b then cur + 1 else 0) :: drySpellAux (if b then cur + 1 else 0) bs

/-- The DRY_SPELL_LENGTH column (process_and_normalize.py lines 96-105). -/
def dry_spell_length (precip : List (Option ℚ)) : List ℕ :=
  drySpellAux 0 (dry_days precip)

/-- Number of consecutive `true` flags at the end of a list: the
consecutive dry days ending at the last day of the list. -/
def trailingCount (l : List Bool) : ℕ := (l.reverse.takeWhile (fun b => b)).length

/-- Reference value of the counter inside a partially consumed loop whose
incoming counter is `cur`. -/
def spellVal (cur : ℕ) (l : List Bool) : ℕ :=
  if l.all (fun b => b) then cur + l.length else trailingCount l

theorem takeWhile_append_all_true (xs ys : List Bool) (h : ∀ b ∈ xs, b = true) :
    (xs ++ ys).takeWhile (fun b => b) = xs ++ ys.takeWhile (fun b => b) := by
  induction xs with
  | nil => rfl
  | cons x t ih =>
    have hx : x = true := h x (by simp)
    subst hx
    simp only [List.cons_append, List.takeWhile_cons, if_pos]
    rw [ih (fun b hb => h b (by simp [hb]))]

theorem takeWhile_append_exists_false (xs ys : List Bool) (h : ∃ b ∈ xs, b = false) :
    (xs ++ ys).takeWhile (fun b => b) = xs.takeWhile (fun b => b) := by
  induction xs with
  | nil => simp at h
  | cons x t ih =>
    cases hx : x
    · simp [List.takeWhile_cons, hx]
    · obtain ⟨b, hb, hbf⟩ := h
      rcases List.mem_cons.mp hb with hb1 | hb1
      · rw [hb1, hx] at hbf
        exact absurd hbf (by simp)
      · simp only [List.cons_append, List.takeWhile_cons, hx]
        rw [ih ⟨b, hb1, hbf⟩]

theorem trailingCount_all_true (l : List Bool) (h : l.all (fun b => b) = true) :
    trailingCount l = l.length := by
  unfold trailingCount
  have hrev : ∀ b ∈ l.reverse, b = true := by
    intro b hb
    rw [List.all_eq_true] at h
    exact h b (List.mem_reverse.mp hb)
  have h1 := takeWhile_append_all_true l.reverse [] hrev
  simp only [List.append_nil, List.takeWhile_nil] at h1
  rw [h1, List.length_reverse]

theorem spellVal_cons (cur : ℕ) (b : Bool) (l : List Bool) :
    spellVal cur (b :: l) = spellVal (if b then cur + 1 else 0) l := by
  unfold spellVal
  have hrev : (b :: l).reverse = l.reverse ++ [b] := by simp
  by_cases hall : l.all (fun x => x) = true
  · cases b
    · have hcons : (false :: l).all (fun x => x) = false := by simp
      rw [hcons]
      simp only [Bool.false_eq_true, if_false]
      unfold trailingCount
      rw [hrev]
      rw [takeWhile_append_all_true l.reverse [false]
        (fun x hx => (List.all_eq_true.mp hall) x (List.mem_reverse.mp hx))]
      simp [hall]
    · have hcons : (true :: l).all (fun x => x) = true := by simpa using hall
      rw [hcons, hall]
      simp only [if_pos rfl]
      simp [List.length_cons]
      omega
  · have hex : ∃ x ∈ l, x = false := by
      rw [List.all_eq_true] at hall
      push_neg at hall
      obtain ⟨x, hx, hxf⟩ := hall
      exact ⟨x, hx, by simpa using hxf⟩
    have hexrev : ∃ x ∈ l.reverse, x = false := by
      obtain ⟨x, hx, hxf⟩ := hex
      exact ⟨x, List.mem_reverse.mpr hx, hxf⟩
    have hallf : l.all (fun x => x) = false := by
      rw [Bool.eq_false_iff]
      exact hall
    have hcons : (b :: l).all (fun x => x) = false := by
      rw [List.all_cons, hallf, Bool.and_false]
    rw [hcons]
    simp only [Bool.false_eq_true, if_false]
    rw [eq_comm, if_neg (by simpa using hall)]
    unfold trailingCount
    rw [hrev, takeWhile_append_exists_false l.reverse [b] hexrev]

theorem drySpellAux_getD (bs : List Bool) (cur i : ℕ) (hi : i < bs.length) :
    (drySpellAux cur bs).getD i 0 = spellVal cur (bs.take (i + 1)) := by
  induction bs generalizing cur i with
  | nil => simp at hi
  | cons b t ih =>
    cases i with
    | zero =>
      cases b <;> simp [drySpellAux, spellVal, trailingCount]
    | succ n =>
      have hn : n < t.length := by simpa using hi
      have hstep := ih (if b then cur + 1 else 0) n hn
      calc (drySpellAux cur (b :: t)).getD (n + 1) 0
          = (drySpellAux (if b then cur + 1 else 0) t).getD n 0 := by
            simp [drySpellAux]
        _ = spellVal (if b then cur + 1 else 0) (t.take (n + 1)) := hstep
        _ = spellVal cur ((b :: t).take (n + 1 + 1)) := by
            rw [List.take_succ_cons, spellVal_cons]

theorem take_succ_getD {α : Type} (l : List α) (i : ℕ) (hi : i < l.length) (d : α) :
    l.take (i + 1) = l.take i ++ [l.getD i d] := by
  induction l generalizing i with
  | nil => simp at hi
  | cons x t ih =>
    cases i with
    | zero => simp
    | succ n =>
      have hn : n < t.length := by simpa using hi
      rw [List.take_succ_cons, List.take_succ_cons, List.getD_cons_succ, ih n hn]
      rfl

theorem spellVal_zero (l : List Bool) : spellVal 0 l = trailingCount l := by
  unfold spellVal
  by_cases h : l.all (fun b => b) = true
  · rw [if_pos h, trailingCount_all_true l h]
    omega
  · rw [if_neg h]

/-- C9: for a daily precipitation series, a day is flagged dry exactly
when its (present) value is strictly below 1.0; the running dry-spell
counter at day `i` equals the number of consecutive dry flags ending at
day `i`; it is 0 whenever day `i` is wet. -/
theorem c9_dry_spell_tracking (precip : List (Option ℚ)) (i : ℕ) (hi : i < precip.length) :
    ((dry_days precip).getD i false = true ↔
      (∃ x, precip.getD i none = some x ∧ x < 1)) ∧
    (dry_spell_length precip).getD i 0 = trailingCount ((dry_days precip).take (i + 1)) ∧
    ((dry_days precip).getD i false = false → (dry_spell_length precip).getD i 0 = 0) := by
  have hlen : i < (dry_days precip).length := by simpa [dry_days] using hi
  have hflag : (dry_days precip).getD i false = dryFlag (precip.getD i none) := by
    rw [List.getD_eq_getElem _ _ hlen, List.getD_eq_getElem _ _ hi]
    simp [dry_days]
  have hclosed : (dry_spell_length precip).getD i 0 =
      trailingCount ((dry_days precip).take (i + 1)) := by
    unfold dry_spell_length
    rw [drySpellAux_getD _ _ _ hlen, spellVal_zero]
  refine ⟨?_, hclosed, ?_⟩
  · rw [hflag]
    cases hv : precip.getD i none with
    | none => simp [dryFlag]
    | some x => simp [dryFlag]
  · intro hwet
    rw [hclosed]
    have htake : (dry_days precip).take (i + 1) =
        (dry_days precip).take i ++ [(dry_days precip).getD i false] :=
      take_succ_getD _ i hlen false
    rw [htake, hwet]
    unfold trailingCount
    simp [List.takeWhile_cons]

/-- C9 witness: the flag, the running counter and the reset on the
concrete series [0.5, 0.2, 3, 0.9] (dry, dry, wet, dry). -/
theorem c9_dry_spell_tracking_witness :
    (2 < ([some 0.5, some 0.2, some 3, some 0.9] : List (Option ℚ)).length) ∧
    (((dry_days [some 0.5, some 0.2, some 3, some 0.9]).getD 2 false = true ↔
      (∃ x, ([some 0.5, some 0.2, some 3, some 0.9] : List (Option ℚ)).getD 2 none = some x ∧
        x < 1)) ∧
    (dry_spell_length [some 0.5, some 0.2, some 3, some 0.9]).getD 2 0 =
      trailingCount ((dry_days [some 0.5, some 0.2, some 3, some 0.9]).take (2 + 1)) ∧
    ((dry_days [some 0.5, some 0.2, some 3, some 0.9]).getD 2 false = false →
      (dry_spell_length [some 0.5, some 0.2, some 3, some 0.9]).getD 2 0 = 0)) :=
  ⟨by norm_num,
   c9_dry_spell_tracking [some 0.5, some 0.2, some 3, some 0.9] 2 (by norm_num)⟩

/-- One row of acvi_scores.csv as loaded by the sensitivity analyzer. -/
structure ScoreRow where
  location : String
  acvi_score : ℚ
  components : Component → ℚ

/-- Stable insertion for a descending sort by a score function: an
element moves before the first strictly smaller one, so equal scores
keep their input order (the deterministic tie-break of the data model). -/
def insertDescBy {α : Type} (score : α → ℚ) (a : α) : List α → List α
  | [] => [a]
  | b :: l => if score b ≤ score a then a :: b :: l else b :: insertDescBy score a l

/-- Descending sort by a score function, modelling
`df.sort_values(..., ascending=False)`. -/
def sortDescBy {α : Type} (score : α → ℚ) : List α → List α
  | [] => []
  | a :: l => insertDescBy score a (sortDescBy score l)

/-- The baseline ranking (analys.py line 62): locations ordered by
descending acvi_score. -/
def baseline_ranking (t : List ScoreRow) : List String :=
  (sortDescBy (fun r => r.acvi_score) t).map (fun r => r.location)

/-- `_ranking_correlation` (analys.py lines 144-151): Spearman rank
correlation over the common locations.  The rank vectors are the
positions in each ranking, which are pairwise distinct, so scipy's
`spearmanr` equals the classical tie-free closed form
1 − 6·Σd²/(n·(n²−1)); for n ≤ 1 scipy yields NaN, modelled as 0. -/
def ranking_correlation (rank1 rank2 : List String) : ℚ :=
  let common := rank1.filter (fun l => decide (l ∈ rank2))
  let n := common.length
  if n ≤ 1 then 0
  else
    let d2 := (common.map (fun l =>
      ((rank1.indexOf l : ℚ) - (rank2.indexOf l : ℚ)) ^ 2)).sum
    1 - 6 * d2 / (n * (n ^ 2 - 1))

/-- `_top_n_overlap` (analys.py lines 153-156): size of the intersection
of the two top-n location sets. -/
def top_n_overlap (rank1 rank2 : List String) (n : ℕ) : ℕ :=
  ((rank1.take n).filter (fun l => decide (l ∈ rank2.take n))).length

/-- Scenario 1 of `_generate_weight_scenarios` (analys.py line 98). -/
def equal_weights : Component → ℚ := fun _ => 25/100

/-- Scenarios 2-5 (analys.py lines 100-102): one dominant component. -/
def dominantWeights (comp : Component) : Component → ℚ :=
  fun c => if c = comp then 5/10 else 167/1000

/-- Scenarios 6-9 (analys.py lines 104-106): one minimized component. -/
def minimizedWeights (comp : Component) : Component → ℚ :=
  fun c => if c = comp then 1/10 else 3/10

/-- Sum of a weight vector over the four components,
`sum(weights.values())`. -/
def weightSum (w : Component → ℚ) : ℚ :=
  w temperature_volatility + w precipitation_volatility +
  w moisture_stress + w extreme_events

/-- Renormalization of a weight vector to unit sum,
`{k: v / total for k, v in weights.items()}`. -/
def renormalizeW (w : Component → ℚ) : Component → ℚ := fun c => w c / weightSum w

/-- Scenarios 10-15 (analys.py lines 108-116): the default weights, each
multiplied by a fresh draw of the seeded uniform stream `u` (consumed in
component order, four draws per scenario), then renormalized. -/
def perturbedWeights (u : ℕ → ℚ) (j : ℕ) : Component → ℚ :=
  renormalizeW (fun c => default_weights c * u (4 * j + componentIdx c))

/-- Scenario 16 (analys.py lines 118-123). -/
def alt_weights_a : Component → ℚ
  | temperature_volatility => 40/100
  | precipitation_volatility => 40/100
  | moisture_stress => 15/100
  | extreme_events => 5/100

/-- Scenario 17 (analys.py lines 125-130). -/
def alt_weights_b : Component → ℚ
  | temperature_volatility => 15/100
  | precipitation_volatility => 15/100
  | moisture_stress => 40/100
  | extreme_events => 30/100

/-- `_generate_weight_scenarios` (analys.py lines 96-132), with the
seeded uniform [0.8, 1.2] stream passed explicitly as `u`. -/
def generate_weight_scenarios (u : ℕ → ℚ) : List (Component → ℚ) :=
  [equal_weights] ++ componentList.map dominantWeights ++
    componentList.map minimizedWeights ++
    (List.range 6).map (perturbedWeights u) ++ [alt_weights_a, alt_weights_b]

/-- Zero weight vector, used only as a `getD` default. -/
def zeroW : Component → ℚ := fun _ => 0

theorem weightSum_renormalize (w : Component → ℚ) (h : weightSum w ≠ 0) :
    weightSum (renormalizeW w) = 1 := by
  unfold weightSum renormalizeW
  rw [div_add_div_same, div_add_div_same, div_add_div_same]
  exact div_self h

/-- C5: the scenario battery holds exactly 17 weight vectors, in order:
equal weights; four dominant vectors (0.5 for the chosen component,
0.167 elsewhere); four minimized vectors (0.1 for the chosen component,
0.3 elsewhere); six uniformly perturbed and renormalized variants of the
default weights, each summing to 1; and the two hand-specified regimes. -/
theorem c5_weight_scenario_battery (u : ℕ → ℚ)
    (hu : ∀ n, 4/5 ≤ u n ∧ u n ≤ 6/5) :
    (generate_weight_scenarios u).length = 17 ∧
    (∀ c, (generate_weight_scenarios u).getD 0 zeroW c = 25/100) ∧
    (∀ comp, (generate_weight_scenarios u).getD (1 + componentIdx comp) zeroW comp = 5/10 ∧
      ∀ c, c ≠ comp →
        (generate_weight_scenarios u).getD (1 + componentIdx comp) zeroW c = 167/1000) ∧
    (∀ comp, (generate_weight_scenarios u).getD (5 + componentIdx comp) zeroW comp = 1/10 ∧
      ∀ c, c ≠ comp →
        (generate_weight_scenarios u).getD (5 + componentIdx comp) zeroW c = 3/10) ∧
    (∀ j, j < 6 → (∀ c, (generate_weight_scenarios u).getD (9 + j) zeroW c =
        default_weights c * u (4 * j + componentIdx c) /
          weightSum (fun c' => default_weights c' * u (4 * j + componentIdx c'))) ∧
      weightSum ((generate_weight_scenarios u).getD (9 + j) zeroW) = 1) ∧
    (generate_weight_scenarios u).getD 15 zeroW = alt_weights_a ∧
    (generate_weight_scenarios u).getD 16 zeroW = alt_weights_b := by
  have hpos : ∀ j, 0 < weightSum (fun c => default_weights c * u (4 * j + componentIdx c)) := by
    intro j
    have hterm : ∀ c : Component, 0 < default_weights c * u (4 * j + componentIdx c) := by
      intro c
      apply mul_pos
      · cases c <;> norm_num [default_weights]
      · exact lt_of_lt_of_le (by norm_num) (hu _).1
    unfold weightSum
    beta_reduce
    exact add_pos (add_pos (add_pos (hterm _) (hterm _)) (hterm _)) (hterm _)
  refine ⟨rfl, fun c => rfl, ?_, ?_, ?_, rfl, rfl⟩
  · intro comp
    cases comp <;> exact ⟨rfl, fun c hc => by cases c <;> simp_all <;> rfl⟩
  · intro comp
    cases comp <;> exact ⟨rfl, fun c hc => by cases c <;> simp_all <;> rfl⟩
  · intro j hj
    have hform : ∀ c, (generate_weight_scenarios u).getD (9 + j) zeroW c =
        default_weights c * u (4 * j + componentIdx c) /
          weightSum (fun c' => default_weights c' * u (4 * j + componentIdx c')) := by
      interval_cases j <;> exact fun c => rfl
    refine ⟨hform, ?_⟩
    have hgd : (generate_weight_scenarios u).getD (9 + j) zeroW =
        renormalizeW (fun c => default_weights c * u (4 * j + componentIdx c)) := by
      interval_cases j <;> rfl
    rw [hgd]
    exact weightSum_renormalize _ (ne_of_gt (hpos j))

/-- C5 witness: the scenario battery for the constant stream 1. -/
theorem c5_weight_scenario_battery_witness :
    (∀ n : ℕ, 4/5 ≤ (fun _ : ℕ => (1:ℚ)) n ∧ (fun _ : ℕ => (1:ℚ)) n ≤ 6/5) ∧
    (generate_weight_scenarios (fun _ => 1)).length = 17 ∧
    (∀ c, (generate_weight_scenarios (fun _ => 1)).getD 0 zeroW c = 25/100) :=
  ⟨fun _ => by norm_num,
   (c5_weight_scenario_battery (fun _ => 1) (fun _ => by norm_num)).1,
   (c5_weight_scenario_battery (fun _ => 1) (fun _ => by norm_num)).2.1⟩

/-- `_calculate_vif` (analys.py lines 215-226), as a function of the
coefficient of determination R² returned by `model.score` for the
ordinary-least-squares regression of one component on the other three.
The fit itself is performed by the external sklearn library; an OLS R²
scored on its own training data always lies in [0, 1]. -/
def calculate_vif (r_squared : ℚ) : ℚ :=
  if 9999/10000 ≤ r_squared then 99999/100
  else 1 / (1 - r_squared)

/-- C6: the variance-inflation factor equals 1/(1 − R²) below the cap, is
capped at exactly 999.99 whenever R² ≥ 0.9999, and is always at least 1
for an R² in [0, 1]. -/
theorem c6_vif_formula_cap_and_lower_bound (r2 : ℚ) (h0 : 0 ≤ r2) (_h1 : r2 ≤ 1) :
    (r2 < 9999/10000 → calculate_vif r2 = 1 / (1 - r2)) ∧
    (9999/10000 ≤ r2 → calculate_vif r2 = 99999/100) ∧
    1 ≤ calculate_vif r2 := by
  unfold calculate_vif
  refine ⟨fun h => by rw [if_neg (not_le.mpr h)], fun h => by rw [if_pos h], ?_⟩
  by_cases h : 9999/10000 ≤ r2
  · rw [if_pos h]
    norm_num
  · rw [if_neg h]
    push_neg at h
    have hpos : 0 < 1 - r2 := by linarith
    rw [le_div_iff₀ hpos]
    linarith

/-- C6 witness: the formula, the cap condition and the lower bound at
R² = 1/2, where the VIF is 2. -/
theorem c6_vif_witness :
    (0 ≤ (1/2 : ℚ) ∧ (1/2 : ℚ) ≤ 1) ∧
    (((1/2 : ℚ) < 9999/10000 → calculate_vif (1/2) = 1 / (1 - 1/2)) ∧
    ((9999/10000 : ℚ) ≤ 1/2 → calculate_vif (1/2) = 99999/100) ∧
    1 ≤ calculate_vif (1/2)) :=
  ⟨by norm_num, c6_vif_formula_cap_and_lower_bound (1/2) (by norm_num) (by norm_num)⟩

/-- Clipping of a noisy component value to [0, 1] (analys.py line 254:
`noisy_df[comp].clip(0, 1)`), although the stored component values are
0-100 normalized scores. -/
def clip01 (x : ℚ) : ℚ := max 0 (min x 1)

/-- The per-row loop body of one Monte Carlo trial: row `i` gets each
component multiplied by the noise draw `g i c`, clipped to [0, 1], and is
re-scored with the jittered weights `w`. -/
def monteCarloRows (g : ℕ → Component → ℚ) (w : Component → ℚ) :
    ℕ → List ScoreRow → List (ScoreRow × ℚ)
  | _, [] => []
  | i, r :: rest =>
    (r, calculate_acvi_with_weights w (fun c => clip01 (r.components c * g i c))) ::
      monteCarloRows g w (i + 1) rest

/-- One Monte Carlo trial (analys.py lines 242-257): the weight jitter
draws `u` (uniform [0.9, 1.1] per component) scale the default weights,
which are renormalized to unit sum; the Gaussian noise draws `g`
(mean 1.0) scale every component value, which is then clipped to [0,1];
the rows are re-scored with the jittered weights. -/
def monte_carlo_trial (t : List ScoreRow) (u : Component → ℚ)
    (g : ℕ → Component → ℚ) : List (ScoreRow × ℚ) :=
  monteCarloRows g (renormalizeW (fun c => default_weights c * u c)) 0 t

/-- The trial ranking (analys.py line 257): locations by descending
trial score. -/
def trial_ranking (trial : List (ScoreRow × ℚ)) : List String :=
  (sortDescBy (fun p => p.2) trial).map (fun p => p.1.location)

/-- Mean squared error between baseline and trial scores (analys.py line
260 computes its square root; the RMSE is zero exactly when this is). -/
def score_mse (trial : List (ScoreRow × ℚ)) : ℚ :=
  if trial.length = 0 then 0
  else (trial.map (fun p => (p.1.acvi_score - p.2) ^ 2)).sum / trial.length

/-- The per-trial statistics recorded by the simulation (analys.py lines
259-265). -/
structure TrialStats where
  rank_corr : ℚ
  mse : ℚ
  top10 : ℕ

/-- The statistics of a single trial against the baseline. -/
def trial_stats (t : List ScoreRow) (u : Component → ℚ)
    (g : ℕ → Component → ℚ) : TrialStats :=
  { rank_corr := ranking_correlation (baseline_ranking t)
      (trial_ranking (monte_carlo_trial t u g))
    mse := score_mse (monte_carlo_trial t u g)
    top10 := top_n_overlap (baseline_ranking t)
      (trial_ranking (monte_carlo_trial t u g)) 10 }

/-- `monte_carlo_simulation` (analys.py lines 228-282): `nsim` trials,
trial `i` consuming the weight draws `u i` and the noise draws `g i` of
the seeded stream. -/
def monte_carlo_simulation (t : List ScoreRow) (nsim : ℕ)
    (u : ℕ → Component → ℚ) (g : ℕ → ℕ → Component → ℚ) : List TrialStats :=
  (List.range nsim).map (fun i => trial_stats t (u i) (g i))

theorem insertDescBy_map_pair {α : Type} (s : α → ℚ) (a : α) (l : List α) :
    insertDescBy (fun p : α × ℚ => p.2) (a, s a) (l.map (fun r => (r, s r))) =
      (insertDescBy s a l).map (fun r => (r, s r)) := by
  induction l with
  | nil => rfl
  | cons b tl ih =>
    simp only [List.map_cons, insertDescBy]
    by_cases h : s b ≤ s a
    · rw [if_pos h, if_pos h]
      rfl
    · rw [if_neg h, if_neg h, List.map_cons, ih]

theorem sortDescBy_map_pair {α : Type} (s : α → ℚ) (l : List α) :
    sortDescBy (fun p : α × ℚ => p.2) (l.map (fun r => (r, s r))) =
      (sortDescBy s l).map (fun r => (r, s r)) := by
  induction l with
  | nil => rfl
  | cons a tl ih =>
    simp only [List.map_cons, sortDescBy]
    rw [ih, insertDescBy_map_pair]

theorem insertDescBy_perm {α : Type} (s : α → ℚ) (a : α) (l : List α) :
    List.Perm (insertDescBy s a l) (a :: l) := by
  induction l with
  | nil => exact List.Perm.refl _
  | cons b tl ih =>
    unfold insertDescBy
    by_cases h : s b ≤ s a
    · rw [if_pos h]
    · rw [if_neg h]
      exact (List.Perm.cons b ih).trans (List.Perm.swap a b tl)

theorem sortDescBy_perm {α : Type} (s : α → ℚ) (l : List α) :
    List.Perm (sortDescBy s l) l := by
  induction l with
  | nil => exact List.Perm.refl _
  | cons a tl ih =>
    unfold sortDescBy
    exact (insertDescBy_perm s a (sortDescBy s tl)).trans (List.Perm.cons a ih)

theorem length_baseline_ranking (t : List ScoreRow) :
    (baseline_ranking t).length = t.length := by
  unfold baseline_ranking
  rw [List.length_map]
  exact (sortDescBy_perm _ t).length_eq

theorem ranking_correlation_self (r : List String) (h2 : 2 ≤ r.length) :
    ranking_correlation r r = 1 := by
  simp only [ranking_correlation]
  have hfil : r.filter (fun l => decide (l ∈ r)) = r :=
    List.filter_eq_self.mpr (fun a ha => by simpa using ha)
  rw [hfil]
  rw [if_neg (by omega)]
  have hd2 : (r.map (fun l => ((r.indexOf l : ℚ) - (r.indexOf l : ℚ)) ^ 2)).sum = 0 := by
    apply List.sum_eq_zero
    intro x hx
    rw [List.mem_map] at hx
    obtain ⟨a, _, rfl⟩ := hx
    norm_num
  rw [hd2]
  norm_num

theorem monteCarloRows_const_noise (w : Component → ℚ) (t : List ScoreRow) (i : ℕ) :
    monteCarloRows (fun _ _ => 1) w i t =
      t.map (fun r =>
        (r, calculate_acvi_with_weights w (fun c => clip01 (r.components c * 1)))) := by
  induction t generalizing i with
  | nil => rfl
  | cons r rest ih =>
    simp only [monteCarloRows, List.map_cons]
    rw [ih]

theorem renormalize_default_weights : renormalizeW default_weights = default_weights := by
  funext c
  unfold renormalizeW weightSum
  cases c <;> norm_num [default_weights]

/-- A location with a high baseline score but small raw component
values. -/
def rowHi : ScoreRow := { location := "A", acvi_score := 80, components := fun _ => 1/5 }

/-- A location with a low baseline score but large raw component
values. -/
def rowLo : ScoreRow := { location := "B", acvi_score := 40, components := fun _ => 4/5 }

/-- C4 counterexample: on a concrete two-location table the Monte Carlo
trial with Gaussian noise of standard deviation 0 (all noise draws equal
to the mean 1.0) and the weight jitter collapsed to the constant factor 1
does not reproduce the baseline: the trial ranking is the reverse of the
baseline ranking (rank correlation -1) and the score MSE, hence the RMSE,
is nonzero — the clip of the 0-100 scale component values to [0, 1] and
the different baseline weights break exact reproduction. -/
theorem c4_zero_noise_counterexample :
    ranking_correlation (baseline_ranking [rowHi, rowLo])
      (trial_ranking (monte_carlo_trial [rowHi, rowLo] (fun _ => 1) (fun _ _ => 1))) = -1 ∧
    score_mse (monte_carlo_trial [rowHi, rowLo] (fun _ => 1) (fun _ _ => 1)) ≠ 0 := by
  have hb : baseline_ranking [rowHi, rowLo] = ["A", "B"] := by
    norm_num [baseline_ranking, sortDescBy, insertDescBy, rowHi, rowLo]
  have htrial : monte_carlo_trial [rowHi, rowLo] (fun _ => 1) (fun _ _ => 1) =
      [(rowHi, 1/5), (rowLo, 4/5)] := by
    norm_num [monte_carlo_trial, monteCarloRows, calculate_acvi_with_weights,
      renormalizeW, weightSum, default_weights, clip01, rowHi, rowLo]
  rw [hb, htrial]
  constructor
  · have ht : trial_ranking [(rowHi, 1/5), (rowLo, 4/5)] = ["B", "A"] := by
      norm_num [trial_ranking, sortDescBy, insertDescBy, rowHi, rowLo]
    rw [ht]
    simp only [ranking_correlation, List.indexOf, List.findIdx, List.findIdx.go,
      List.filter, List.map, List.length_cons, List.length_nil, String.reduceBEq,
      String.reduceEq, cond_false, cond_true, decide_True, decide_False]
    norm_num [List.sum_cons]
  · norm_num [score_mse, rowHi, rowLo]

/-- C4 (amended): the zero-noise trial (noise std 0, jitter range [1,1])
reproduces the baseline exactly — MSE 0, hence RMSE 0, identical ranking
and rank correlation 1 — provided every component value already lies in
[0, 1] (so the [0,1] clip is the identity) and every baseline score is
the default-weighted combination of its components (neither holds for the
real pipeline, whose baseline weights differ and whose components are on
a 0-100 scale). -/
theorem c4_zero_noise_reproduces_baseline (t : List ScoreRow)
    (hcomp : ∀ r ∈ t, ∀ c, 0 ≤ r.components c ∧ r.components c ≤ 1)
    (hbase : ∀ r ∈ t,
      r.acvi_score = calculate_acvi_with_weights default_weights r.components)
    (hlen : 2 ≤ t.length) :
    score_mse (monte_carlo_trial t (fun _ => 1) (fun _ _ => 1)) = 0 ∧
    trial_ranking (monte_carlo_trial t (fun _ => 1) (fun _ _ => 1)) = baseline_ranking t ∧
    ranking_correlation (baseline_ranking t)
      (trial_ranking (monte_carlo_trial t (fun _ => 1) (fun _ _ => 1))) = 1 := by
  have htrial : monte_carlo_trial t (fun _ => 1) (fun _ _ => 1) =
      t.map (fun r => (r, r.acvi_score)) := by
    unfold monte_carlo_trial
    rw [monteCarloRows_const_noise]
    apply List.map_congr_left
    intro r hr
    have hwsimp : (fun c => default_weights c * (fun _ : Component => (1:ℚ)) c) =
        default_weights := by
      funext c
      simp
    rw [hwsimp, renormalize_default_weights]
    have hcsimp : (fun c => clip01 (r.components c * 1)) = r.components := by
      funext c
      have hc := hcomp r hr c
      unfold clip01
      rw [mul_one, min_eq_left hc.2, max_eq_right hc.1]
    rw [hcsimp, ← hbase r hr]
  have hrank : trial_ranking (monte_carlo_trial t (fun _ => 1) (fun _ _ => 1)) =
      baseline_ranking t := by
    rw [htrial]
    unfold trial_ranking
    rw [sortDescBy_map_pair (fun r => r.acvi_score) t]
    rw [List.map_map]
    rfl
  refine ⟨?_, hrank, ?_⟩
  · rw [htrial]
    unfold score_mse
    by_cases h0 : (t.map (fun r => (r, r.acvi_score))).length = 0
    · rw [if_pos h0]
    · rw [if_neg h0]
      have hzero : ((t.map (fun r => (r, r.acvi_score))).map
          (fun p => (p.1.acvi_score - p.2) ^ 2)).sum = 0 := by
        apply List.sum_eq_zero
        intro x hx
        rw [List.map_map, List.mem_map] at hx
        obtain ⟨r, _, rfl⟩ := hx
        norm_num
      rw [hzero, zero_div]
  · rw [hrank]
    apply ranking_correlation_self
    rw [length_baseline_ranking]
    exact hlen

/-- A location on the [0, 1] component scale whose score is the
default-weighted combination of its components. -/
def rowUnitHi : ScoreRow := { location := "A", acvi_score := 4/5, components := fun _ => 4/5 }

/-- A second location on the [0, 1] component scale whose score is the
default-weighted combination of its components. -/
def rowUnitLo : ScoreRow := { location := "B", acvi_score := 1/5, components := fun _ => 1/5 }

/-- C4 witness: the amended statement on a two-location table whose
components are in [0, 1] and whose scores are the default-weighted
combinations (A scores 4/5, B scores 1/5). -/
theorem c4_zero_noise_reproduces_baseline_witness :
    ((∀ r ∈ [rowUnitHi, rowUnitLo],
        ∀ c : Component, 0 ≤ r.components c ∧ r.components c ≤ 1) ∧
      (∀ r ∈ [rowUnitHi, rowUnitLo],
        ScoreRow.acvi_score r =
          calculate_acvi_with_weights default_weights r.components) ∧
      2 ≤ ([rowUnitHi, rowUnitLo] : List ScoreRow).length) ∧
    score_mse (monte_carlo_trial [rowUnitHi, rowUnitLo]
      (fun _ => 1) (fun _ _ => 1)) = 0 := by
  have hcomp : ∀ r ∈ [rowUnitHi, rowUnitLo],
      ∀ c : Component, 0 ≤ r.components c ∧ r.components c ≤ 1 := by
    intro r hr c
    rcases List.mem_cons.mp hr with h | h
    · rw [h]
      norm_num [rowUnitHi]
    · rw [List.mem_singleton.mp h]
      norm_num [rowUnitLo]
  have hbase : ∀ r ∈ [rowUnitHi, rowUnitLo],
      ScoreRow.acvi_score r =
        calculate_acvi_with_weights default_weights r.components := by
    intro r hr
    rcases List.mem_cons.mp hr with h | h
    · rw [h]
      norm_num [rowUnitHi, calculate_acvi_with_weights, default_weights]
    · rw [List.mem_singleton.mp h]
      norm_num [rowUnitLo, calculate_acvi_with_weights, default_weights]
  exact ⟨⟨hcomp, hbase, by norm_num⟩,
    (c4_zero_noise_reproduces_baseline _ hcomp hbase (by norm_num)).1⟩

/-- C7: the robustness analysis is a pure function of the seeded random
streams — the weight-scenario battery and the full 1000-trial Monte Carlo
simulation give identical results whenever the streams agree pointwise,
which is exactly what re-running with the same seed provides. -/
theorem c7_seeded_determinism (t : List ScoreRow) (v1 v2 : ℕ → ℚ)
    (u1 u2 : ℕ → Component → ℚ) (g1 g2 : ℕ → ℕ → Component → ℚ)
    (hv : ∀ n, v1 n = v2 n) (hu : ∀ i c, u1 i c = u2 i c)
    (hg : ∀ i j c, g1 i j c = g2 i j c) :
    generate_weight_scenarios v1 = generate_weight_scenarios v2 ∧
    monte_carlo_simulation t 1000 u1 g1 = monte_carlo_simulation t 1000 u2 g2 := by
  have hv2 : v1 = v2 := funext hv
  have hu2 : u1 = u2 := funext fun i => funext (hu i)
  have hg2 : g1 = g2 := funext fun i => funext fun j => funext (hg i j)
  rw [hv2, hu2, hg2]
  exact ⟨rfl, rfl⟩

/-- C7 witness: determinism instantiated at definitionally equal constant
streams on a one-row table. -/
theorem c7_seeded_determinism_witness :
    generate_weight_scenarios (fun _ => 1) = generate_weight_scenarios (fun _ => 1) ∧
    monte_carlo_simulation [rowHi] 1000 (fun _ _ => 1) (fun _ _ _ => 1) =
      monte_carlo_simulation [rowHi] 1000 (fun _ _ => 1) (fun _ _ _ => 1) :=
  c7_seeded_determinism [rowHi]
    (fun _ => 1) (fun _ => 1) (fun _ _ => 1) (fun _ _ => 1)
    (fun _ _ _ => 1) (fun _ _ _ => 1)
    (fun _ => rfl) (fun _ _ => rfl) (fun _ _ _ => rfl)

/-- One row of the external yield_volatility.csv table
(fao_yield_data.py lines 172-187). -/
structure FaoRow where
  country : String
  crop : String
  mean_yield : ℚ
  cv_yield : ℚ
  detrended_cv : ℚ

/-- One country-level aggregated row (output of
`aggregate_location_acvi`). -/
structure CountryAcvi where
  country : String
  acvi_score : ℚ
  components : Component → ℚ

/-- Arithmetic mean of a list, the pandas `"mean"` aggregation (guarded
for the empty list, which the groupby never produces). -/
def listMean (xs : List ℚ) : ℚ := if xs.length = 0 then 0 else xs.sum / xs.length

/-- The score rows whose location maps to country `c`; locations absent
from the location→country mapping map to `none` and are dropped by the
pandas groupby. -/
def countryRows (l2c : String → Option String) (t : List ScoreRow) (c : String) :
    List ScoreRow :=
  t.filter (fun r => decide (l2c r.location = some c))

/-- `aggregate_location_acvi` (validate_acvi.py lines 106-123): group the
locations by country and take the arithmetic mean of the composite score
and of each component. -/
def aggregate_location_acvi (l2c : String → Option String) (t : List ScoreRow) :
    List CountryAcvi :=
  ((t.filterMap (fun r => l2c r.location)).dedup).map (fun c =>
    { country := c
      acvi_score := listMean ((countryRows l2c t c).map (fun r => r.acvi_score))
      components := fun comp =>
        listMean ((countryRows l2c t c).map (fun r => r.components comp)) })

/-- The crop loop of `calculate_correlations` (validate_acvi.py line 134). -/
def crops : List String := ["wheat", "maize"]

/-- `pd.merge(..., on="country", how="inner")`. -/
def innerJoinCountry (ca : List CountryAcvi) (fao : List FaoRow) :
    List (CountryAcvi × FaoRow) :=
  ca.flatMap (fun a => (fao.filter (fun f => f.country == a.country)).map (fun f => (a, f)))

/-- The per-crop result retained when the join is large enough. -/
structure CropCorr where
  n_samples : ℕ
  merged : List (CountryAcvi × FaoRow)

/-- `calculate_correlations` (validate_acvi.py lines 125-202): per crop,
inner-join the country aggregates with that crop's yield rows; fewer than
3 joined rows skips the crop with an insufficient-data signal (`none`)
and the loop continues with the other crops.  The Pearson statistics are
computed from `merged` by the external scipy library and are not part of
the gating logic. -/
def calculate_correlations (l2c : String → Option String) (t : List ScoreRow)
    (fao : List FaoRow) : List (String × Option CropCorr) :=
  crops.map (fun crop =>
    let merged := innerJoinCountry (aggregate_location_acvi l2c t)
      (fao.filter (fun f => f.crop == crop))
    if merged.length < 3 then (crop, none)
    else (crop, some { n_samples := merged.length, merged := merged }))

/-- C8: the validator always reports on both crops in order; a crop is
skipped (signalled `none`) exactly when its inner join has fewer than 3
rows; a retained crop records a sample size of at least 3 equal to the
join size; and every country aggregate is the arithmetic mean of the
scores of the locations mapped to that country. -/
theorem c8_validation_gate (l2c : String → Option String) (t : List ScoreRow)
    (fao : List FaoRow) (crop : String) (hcrop : crop ∈ crops) :
    ((calculate_correlations l2c t fao).map Prod.fst = crops) ∧
    ((crop, (none : Option CropCorr)) ∈ calculate_correlations l2c t fao ↔
      (innerJoinCountry (aggregate_location_acvi l2c t)
        (fao.filter (fun f => f.crop == crop))).length < 3) ∧
    (∀ res : CropCorr, (crop, some res) ∈ calculate_correlations l2c t fao →
      3 ≤ res.n_samples ∧
      res.n_samples = (innerJoinCountry (aggregate_location_acvi l2c t)
        (fao.filter (fun f => f.crop == crop))).length) ∧
    (∀ e ∈ aggregate_location_acvi l2c t,
      (countryRows l2c t e.country).length ≠ 0 ∧
      e.acvi_score = ((countryRows l2c t e.country).map (fun r => r.acvi_score)).sum /
        (countryRows l2c t e.country).length) := by
  refine ⟨?_, ?_, ?_, ?_⟩
  · unfold calculate_correlations
    rw [List.map_map]
    apply List.map_congr_left ?_ |>.trans (List.map_id crops)
    intro c _
    by_cases h : (innerJoinCountry (aggregate_location_acvi l2c t)
        (fao.filter (fun f => f.crop == c))).length < 3
    · simp [h]
    · simp [h]
  · constructor
    · intro hmem
      unfold calculate_correlations at hmem
      rw [List.mem_map] at hmem
      obtain ⟨c, _, heq⟩ := hmem
      by_cases h : (innerJoinCountry (aggregate_location_acvi l2c t)
          (fao.filter (fun f => f.crop == c))).length < 3
      · rw [if_pos h] at heq
        have hc : c = crop := (Prod.mk.injEq _ _ _ _ ▸ heq).1
        rw [hc] at h
        exact h
      · rw [if_neg h] at heq
        exact absurd (Prod.mk.injEq _ _ _ _ ▸ heq).2 (by simp)
    · intro h
      unfold calculate_correlations
      rw [List.mem_map]
      exact ⟨crop, hcrop, by rw [if_pos h]⟩
  · intro res hmem
    unfold calculate_correlations at hmem
    rw [List.mem_map] at hmem
    obtain ⟨c, _, heq⟩ := hmem
    by_cases h : (innerJoinCountry (aggregate_location_acvi l2c t)
        (fao.filter (fun f => f.crop == c))).length < 3
    · rw [if_pos h] at heq
      exact absurd (Prod.mk.injEq _ _ _ _ ▸ heq).2 (by simp)
    · rw [if_neg h] at heq
      have hpair := Prod.mk.injEq _ _ _ _ ▸ heq
      have hc : c = crop := hpair.1
      have hres := Option.some.inj hpair.2
      rw [← hres, ← hc]
      refine ⟨?_, rfl⟩
      have h3 : 3 ≤ (innerJoinCountry (aggregate_location_acvi l2c t)
          (fao.filter (fun f => f.crop == c))).length := by omega
      exact h3
  · intro e hmem
    unfold aggregate_location_acvi at hmem
    rw [List.mem_map] at hmem
    obtain ⟨c, hc, heq⟩ := hmem
    rw [List.mem_dedup, List.mem_filterMap] at hc
    obtain ⟨r, hr, hrc⟩ := hc
    have hcountry : e.country = c := by rw [← heq]
    have hrmem : r ∈ countryRows l2c t c := by
      unfold countryRows
      rw [List.mem_filter]
      exact ⟨hr, by simpa using hrc⟩
    have hlen : (countryRows l2c t c).length ≠ 0 := by
      have := List.length_pos.mpr (List.ne_nil_of_mem hrmem)
      omega
    rw [hcountry]
    refine ⟨hlen, ?_⟩
    have hscore : e.acvi_score =
        listMean ((countryRows l2c t c).map (fun r => r.acvi_score)) := by
      rw [← heq]
    rw [hscore]
    unfold listMean
    rw [if_neg (by simpa using hlen)]
    rw [List.length_map]

/-- C8 witness: the gate on an empty score table and empty yield table,
where both crops are skipped with the insufficient-data signal. -/
theorem c8_validation_gate_witness :
    ("wheat" ∈ crops) ∧
    (((calculate_correlations (fun _ => none) [] []).map Prod.fst = crops) ∧
    (("wheat", (none : Option CropCorr)) ∈ calculate_correlations (fun _ => none) [] [] ↔
      (innerJoinCountry (aggregate_location_acvi (fun _ => none) [])
        (List.filter (fun f => f.crop == "wheat") [])).length < 3) ∧
    (∀ res : CropCorr,
      ("wheat", some res) ∈ calculate_correlations (fun _ => none) [] [] →
      3 ≤ res.n_samples ∧
      res.n_samples = (innerJoinCountry (aggregate_location_acvi (fun _ => none) [])
        (List.filter (fun f => f.crop == "wheat") [])).length) ∧
    (∀ e ∈ aggregate_location_acvi (fun _ => none) [],
      (countryRows (fun _ => none) [] e.country).length ≠ 0 ∧
      e.acvi_score =
        ((countryRows (fun _ => none) [] e.country).map (fun r => r.acvi_score)).sum /
          (countryRows (fun _ => none) [] e.country).length)) :=
  ⟨by simp [crops],
   c8_validation_gate (fun _ => none) [] [] "wheat" (by simp [crops])⟩

/-- `filter_growing_season` (calculate_acvi.py lines 95-115): keep the
records whose month lies in the configured inclusive range, wrapping
across year-end when the start month exceeds the end month. -/
def filter_growing_season {ρ : Type} (season : ℕ × ℕ) (month : ρ → ℕ)
    (df : List ρ) : List ρ :=
  if season.1 ≤ season.2 then
    df.filter (fun r => decide (season.1 ≤ month r ∧ month r ≤ season.2))
  else
    df.filter (fun r => decide (season.1 ≤ month r ∨ month r ≤ season.2))

/-- A location's composite result (the dictionary built by
`calculate_acvi`). -/
structure AcviResult where
  acvi_score : ℚ
  components : Component → ℚ

/-- `calculate_acvi` (calculate_acvi.py lines 275-304), parametrized by
the four sub-index functions `sub` evaluated on the filtered series.
When the growing-season filter leaves no records, the full unfiltered
series is used instead (lines 279-281), with only a log warning; the
composite uses `self.weights` = `calculator_weights`. -/
def calculate_acvi {ρ : Type} (season : ℕ × ℕ) (month : ρ → ℕ)
    (sub : Component → List ρ → ℚ) (df : List ρ) : AcviResult :=
  let df_growing := filter_growing_season season month df
  let df2 := if df_growing.length = 0 then df else df_growing
  { acvi_score :=
      calculator_weights temperature_volatility * sub temperature_volatility df2 +
      calculator_weights precipitation_volatility * sub precipitation_volatility df2 +
      calculator_weights moisture_stress * sub moisture_stress df2 +
      calculator_weights extreme_events * sub extreme_events df2
    components := fun c => sub c df2 }

/-- C10: when the growing-season filter removes every record, the
sub-indices and the composite score are computed over the full
unfiltered series; a result is still produced for the location (no
rejection), whatever the sub-index functions are. -/
theorem c10_empty_growing_season_fallback {ρ : Type} (season : ℕ × ℕ)
    (month : ρ → ℕ) (sub : Component → List ρ → ℚ) (df : List ρ)
    (h : filter_growing_season season month df = []) :
    (calculate_acvi season month sub df).components = (fun c => sub c df) ∧
    (calculate_acvi season month sub df).acvi_score =
      calculator_weights temperature_volatility * sub temperature_volatility df +
      calculator_weights precipitation_volatility * sub precipitation_volatility df +
      calculator_weights moisture_stress * sub moisture_stress df +
      calculator_weights extreme_events * sub extreme_events df := by
  simp only [calculate_acvi]
  rw [h]
  simp

/-- C10 witness: a two-day series in January and February with the
default April-September growing season; the fallback computes the
sub-indices (here: the series length) over the full series. -/
theorem c10_empty_growing_season_fallback_witness :
    filter_growing_season (4, 9) (fun m => m) [1, 2] = [] ∧
    ((calculate_acvi (4, 9) (fun m => m) (fun (_ : Component) (l : List ℕ) => (l.length : ℚ)) [1, 2]).components =
      (fun c => (fun (_ : Component) (l : List ℕ) => (l.length : ℚ)) c [1, 2]) ∧
    (calculate_acvi (4, 9) (fun m => m) (fun (_ : Component) (l : List ℕ) => (l.length : ℚ)) [1, 2]).acvi_score =
      calculator_weights temperature_volatility *
        (fun (_ : Component) (l : List ℕ) => (l.length : ℚ)) temperature_volatility [1, 2] +
      calculator_weights precipitation_volatility *
        (fun (_ : Component) (l : List ℕ) => (l.length : ℚ)) precipitation_volatility [1, 2] +
      calculator_weights moisture_stress *
        (fun (_ : Component) (l : List ℕ) => (l.length : ℚ)) moisture_stress [1, 2] +
      calculator_weights extreme_events *
        (fun (_ : Component) (l : List ℕ) => (l.length : ℚ)) extreme_events [1, 2]) :=
  ⟨by decide,
   c10_empty_growing_season_fallback (4, 9) (fun m => m)
     (fun (_ : Component) (l : List ℕ) => (l.length : ℚ)) [1, 2] (by decide)⟩

end ACVI
